import Mathlib

/-!
Verification of the humblebundle-scraper repository.

The development shallowly embeds the two cores of the repository:

* `Scraper` — the `internal` scraping package (`src/unnamed/part_000`, first
  document: `BookInfo`, `isbn10ToIsbn13`, `parseBookCode`, `getBookAuthors`,
  `getBookCover`).  Strings are Lean `String`s; all accepted identifier strings
  are ASCII, so Go byte indexing/length coincides with character
  indexing/length on every input the code accepts.  Go's `regexp` engine is
  embedded as a decidable matcher for the one concrete pattern the source
  compiles; `encoding/json` unmarshalling into `map[string][]int` is embedded
  as a small executable parser for that shape (duplicate object keys keep the
  last value, as repeated `m[k] = v` assignments do); the resulting map is a
  key-distinct entry list, and Go's randomized map iteration order is
  immaterial to every property proved here (the scan lemmas hold for an
  arbitrary entry order).  Go panics — it does not return an error — when a
  size array has fewer than two components, so the cover extractor's result
  type carries an explicit panic outcome.

* `Epub` — the `epub` package-metadata builder (`src/unnamed/part_001`):
  the `OPF` document structure and its mutating methods.  `time.Time` values
  and `language.Tag` values enter the builder only through their string
  renderings (`Format(time.RFC3339)`, `lang.String()`, `uuid.New().String()`),
  so they are modelled as the strings the source would have produced.
-/

namespace Scraper

/-- ASCII digit test: the character class `\d` of Go's `regexp` (RE2 without
Unicode flags) and the digit bytes used by the checksum arithmetic. -/
def isDigitChar (c : Char) : Bool := 48 ≤ c.toNat && c.toNat ≤ 57

/-- The character class `[\d-]` from the ISBN pattern in `parseBookCode`. -/
def isDigitOrDash (c : Char) : Bool := isDigitChar c || c == '-'

/-- Models `strings.Trim(s, " ")`: remove leading and trailing spaces. -/
def trimSpaces (s : String) : String :=
  ⟨((s.data.dropWhile (fun c => c == ' ')).reverse.dropWhile (fun c => c == ' ')).reverse⟩

/-- Abstraction of a parsed goquery page: `nodeTexts sel` is the list of the
texts of the nodes the CSS selector `sel` matches (page order), and
`attr sel name` is the value of attribute `name` on the selection `sel`
(`none` when absent, as `goquery.Selection.Attr`'s `exists = false`). -/
structure Document where
  nodeTexts : String → List String
  attr : String → String → Option String

/-- Models `goquery`'s `Find`: an empty selector fails to compile, and
goquery's `compileMatcher` then substitutes a matcher that matches no node,
so `Find("")` always yields the empty selection. -/
def Document.find (doc : Document) (selector : String) : List String :=
  if selector = "" then [] else doc.nodeTexts selector

/-- `getBookAuthors` from the source: collects the trimmed text of every node
of `document.Find("")` (the source builds the selector string
`".author > a"` but only uses it in the error message), then fails if any
collected name is empty. -/
def getBookAuthors (doc : Document) : Except String (List String) :=
  let authors := (doc.find "").map (fun t => trimSpaces t)
  if authors.any (fun name => name == "") then
    .error "could not find some/all authors using selector \".author > a\""
  else
    .ok authors

/-- JSON whitespace as accepted by `encoding/json`. -/
def isJsonWs (c : Char) : Bool := c == ' ' || c == '\t' || c == '\n' || c == '\r'

/-- Skip JSON whitespace. -/
def skipWs (l : List Char) : List Char := l.dropWhile isJsonWs

/-- Body of a JSON string after the opening quote (escape sequences are not
needed by any claim and are not modelled). -/
def parseStringBody : List Char → List Char → Except String (String × List Char)
  | [], _ => .error "unexpected end of JSON input"
  | '"' :: rest, acc => .ok (⟨acc.reverse⟩, rest)
  | c :: rest, acc => parseStringBody rest (c :: acc)

/-- Decimal value of a digit run. -/
def digitsToNat (l : List Char) : Nat := l.foldl (fun a c => a * 10 + (c.toNat - 48)) 0

/-- One JSON integer token (optional minus sign, then digits). -/
def parseIntTok (l : List Char) : Except String (Int × List Char) :=
  match l with
  | '-' :: r =>
    let ds := r.takeWhile isDigitChar
    if ds.isEmpty then .error "invalid character in numeric literal"
    else .ok (-(digitsToNat ds : Int), r.drop ds.length)
  | _ =>
    let ds := l.takeWhile isDigitChar
    if ds.isEmpty then .error "invalid character looking for numeric literal"
    else .ok ((digitsToNat ds : Int), l.drop ds.length)

/-- Elements of a JSON array of integers after the first element's position;
`fuel` bounds the number of elements. -/
def parseIntArrayLoop : Nat → List Int → List Char → Except String (List Int × List Char)
  | 0, _, _ => .error "unexpected end of JSON input"
  | fuel + 1, acc, l => do
    let (n, r) ← parseIntTok (skipWs l)
    match skipWs r with
    | ']' :: r2 => .ok ((n :: acc).reverse, r2)
    | ',' :: r2 => parseIntArrayLoop fuel (n :: acc) r2
    | _ => .error "expected comma or end of array"

/-- A JSON array of integers, positioned just after the opening bracket. -/
def parseIntArray (fuel : Nat) (l : List Char) : Except String (List Int × List Char) :=
  match skipWs l with
  | ']' :: r => .ok ([], r)
  | _ => parseIntArrayLoop fuel [] l

/-- One `"url": [ints]` member of the image-size object. -/
def parsePair (fuel : Nat) (l : List Char) : Except String ((String × List Int) × List Char) :=
  match skipWs l with
  | '"' :: r => do
    let (k, r1) ← parseStringBody r []
    match skipWs r1 with
    | ':' :: r2 =>
      match skipWs r2 with
      | '[' :: r3 => do
        let (ns, r4) ← parseIntArray fuel r3
        .ok ((k, ns), r4)
      | _ => .error "expected array value"
    | _ => .error "expected colon after object key"
  | _ => .error "expected string key"

/-- Members of the image-size object after the first member's position. -/
def parseMembersLoop : Nat → List (String × List Int) → List Char →
    Except String (List (String × List Int) × List Char)
  | 0, _, _ => .error "unexpected end of JSON input"
  | fuel + 1, acc, l => do
    let (p, r) ← parsePair fuel l
    match skipWs r with
    | '}' :: r2 => .ok ((p :: acc).reverse, r2)
    | ',' :: r2 => parseMembersLoop fuel (p :: acc) r2
    | _ => .error "expected comma or end of object"

/-- One `m[k] = v` map assignment on the entry-list representation of a Go
map: overwrite the value when the key is present, append otherwise. -/
def mapInsert (l : List (String × List Int)) (k : String) (v : List Int) :
    List (String × List Int) :=
  if l.any (fun p => p.1 == k) then l.map (fun p => if p.1 == k then (k, v) else p)
  else l ++ [(k, v)]

/-- The map `encoding/json` builds from decoded members in document order:
repeated `m[k] = v` assignments, so a duplicated key keeps its last value
and the resulting entry list is key-distinct. -/
def buildMap : List (String × List Int) → List (String × List Int) :=
  fun ps => ps.foldl (fun m p => mapInsert m p.1 p.2) []

/-- Models `json.Unmarshal([]byte(s), &m)` for `m : map[string][]int`, the one
shape `getBookCover` decodes: a JSON object from string keys to integer
arrays, members assigned into the map in document order (`buildMap`, last
value per key).  The empty input (the value `Attr` yields for a missing
attribute) fails exactly as `encoding/json` does. -/
def parseImageMap (s : String) : Except String (List (String × List Int)) :=
  match skipWs s.data with
  | '{' :: r =>
    match skipWs r with
    | '}' :: r2 =>
      if (skipWs r2).isEmpty then .ok [] else .error "invalid character after top-level value"
    | _ => do
      let (ps, rest) ← parseMembersLoop (s.data.length + 1) [] r
      if (skipWs rest).isEmpty then .ok (buildMap ps)
      else .error "invalid character after top-level value"
  | [] => .error "unexpected end of JSON input"
  | _ => .error "invalid character looking for beginning of value"

/-- Outcome of `getBookCover`: a returned URL, a returned error, or a Go
runtime panic (which is a crash, not an error return). -/
inductive CoverOutcome where
  | ok (url : String)
  | err (msg : String)
  | panics (msg : String)
deriving DecidableEq

/-- One step of `getBookCover`'s scan over the size mapping: keep the entry
whose height (`imageSize[1]`) strictly exceeds the best height so far.
`getD 1 0` is only ever applied under `getBookCover`'s length guard, where
it equals Go's `imageSize[1]`. -/
def coverStep (best : String × Int) (e : String × List Int) : String × Int :=
  if e.2.getD 1 0 > best.2 then (e.1, e.2.getD 1 0) else best

/-- `getBookCover` from the source: read `data-a-dynamic-image` from the
`#ebooksImgBlkFront` selection (`Attr` yields `""` when absent), unmarshal it,
then scan the mapping keeping the URL with the greatest height
(`imageSize[1]`), starting from height `0`.  The loop reads `imageSize[1]`
of every visited entry, so when any entry's array is shorter than 2 the Go
program panics with an index-out-of-range runtime error before returning —
modelled by the `panics` outcome (a crash is unobservable beyond its
occurrence, so visiting order does not matter); otherwise the scan runs to
completion. -/
def getBookCover (doc : Document) : CoverOutcome :=
  let raw := (doc.attr "#ebooksImgBlkFront" "data-a-dynamic-image").getD ""
  match parseImageMap raw with
  | .error e => .err e
  | .ok imageMapping =>
    if imageMapping.all (fun e => 2 ≤ e.2.length) then
      .ok (imageMapping.foldl coverStep ("", 0)).1
    else
      .panics "runtime error: index out of range"

/-- `int(char - '0')` from the checksum loop (Go rune arithmetic, exact on
every character). -/
def charVal (c : Char) : Int := (c.toNat : Int) - 48

/-- The checksum loop of `isbn10ToIsbn13`: `for i, char := range isbn13`,
adding `1*int(char-'0')` at even `i` and `3*int(char-'0')` at odd `i`.
All processed strings are ASCII, so the byte index `i` is the character
index. -/
def checksumLoop : List Char → Nat → Int → Int
  | [], _, acc => acc
  | c :: cs, i, acc => checksumLoop cs (i + 1) (acc + (if i % 2 == 0 then 1 else 3) * charVal c)

/-- `isbn10ToIsbn13` from the source, on the character list: prepend `"978"`
to the first 9 characters, run the weighted checksum over those 12
characters, adjust `10 - sum % 10` (with `10` becoming `0`), and append
`strconv.Itoa` of the result.  `Int.tmod` is Go's `%` (truncated); every
value reaching it here is nonnegative. -/
def isbn10ToIsbn13L (l : List Char) : List Char :=
  let pre := '9' :: '7' :: '8' :: l.take 9
  let sum := checksumLoop pre 0 0
  let c1 := 10 - Int.tmod sum 10
  let c2 := if c1 = 10 then 0 else c1
  pre ++ (toString c2).data

/-- String wrapper for `isbn10ToIsbn13`. -/
def isbn10ToIsbn13 (isbn10 : String) : String := ⟨isbn10ToIsbn13L isbn10.data⟩

/-- `[c]` suffixes of `l` reachable by consuming up to `k` leading characters
of class `[\d-]` — the `{0,4}` repetition inside one group of the ISBN
pattern. -/
def upTo : Nat → List Char → List (List Char)
  | _, [] => [[]]
  | 0, l => [l]
  | k + 1, c :: l => (c :: l) :: (if isDigitOrDash c then upTo k l else [])

/-- The final `[\dX]` of the ISBN pattern, anchored at end of input. -/
def matchTail : List Char → Bool
  | [c] => isDigitChar c || c == 'X'
  | _ => false

/-- Matcher for `n` remaining groups `(?:\d[\d-]{0,4})` followed by `[\dX]`,
anchored: membership in the language of the source's compiled pattern. -/
def matchGroups : Nat → List Char → Bool
  | 0, l => matchTail l
  | _ + 1, [] => false
  | n + 1, c :: l => isDigitChar c && (upTo 4 l).any (fun r => matchGroups n r)

/-- `regexp.MustCompile("^(?:\\d[\\d-]{0,4}){3}[\\dX]$").MatchString`:
with both anchors, `MatchString` is membership in the pattern's language,
which `matchGroups 3` decides. -/
def isbnPatternMatches (s : String) : Bool := matchGroups 3 s.data

/-- Models `strings.HasPrefix(strings.ToLower(asin), "b")`: Go lowercases
rune-wise, so the test is that the first character lowercases to `b`
(`Char.toLower` matches Go on ASCII; no claim exercises non-ASCII ASINs). -/
def hasPrefixLowerB (s : String) : Bool :=
  match s.data with
  | [] => false
  | c :: _ => c.toLower == 'b'

/-- `parseBookCode` from the source.  `String.length` is the character count,
which equals Go's byte `len` on every string the ISBN pattern accepts
(all ASCII). -/
def parseBookCode (asin isbn : String) : Except String String :=
  if asin = "" && isbn = "" then
    .error "ASIN or ISBN-13 codes are mandatory"
  else if asin ≠ "" then
    if hasPrefixLowerB asin then .ok asin else .error "invalid ASIN code"
  else if isbnPatternMatches isbn then
    if isbn.length = 10 then .ok (isbn10ToIsbn13 isbn) else .ok isbn
  else
    .error "invalid ISBN code"

/-- Alternating 1,3-weighted digit sum starting at weight 1 — the checksum
formula as the spec states it (`s` in claim C2).  The flag is `true` when the
next weight is 3. -/
def specAltSum : Bool → List Char → Int
  | _, [] => 0
  | false, c :: cs => charVal c + specAltSum true cs
  | true, c :: cs => 3 * charVal c + specAltSum false cs

/-- Claim C3's validity shape, following the claim's words: a
digits-and-hyphens string whose digit count is exactly 10 or exactly 13
(hyphens freely interspersed), or — the optional trailing check character of
the 10-digit form — nine digits (hyphens interspersed) followed by `X`. -/
def specIsbnShape (s : String) : Bool :=
  let l := s.data
  (l.all isDigitOrDash && (l.countP (fun c => isDigitChar c) == 10 ||
                           l.countP (fun c => isDigitChar c) == 13))
  || (match l.getLast? with
      | some 'X' =>
        l.dropLast.all isDigitOrDash && l.dropLast.countP (fun c => isDigitChar c) == 9
      | _ => false)

/-- A page whose `".author > a"` nodes are `["Jane Doe"]` — the failing input
for claim C8. -/
def authorsPage : Document :=
  { nodeTexts := fun sel => if sel = ".author > a" then ["Jane Doe"] else []
    attr := fun _ _ => none }

/-- A well-formed size mapping whose only (hence strictly maximal) height
is `0`. -/
def coverJsonZero : String := "\x7b\"u\":[1,0]\x7d"

/-- A page carrying `coverJsonZero` as its `data-a-dynamic-image` attribute. -/
def coverPageZero : Document :=
  { nodeTexts := fun _ => []
    attr := fun sel name =>
      if sel = "#ebooksImgBlkFront" ∧ name = "data-a-dynamic-image" then some coverJsonZero
      else none }

/-- A size mapping whose single entry has fewer than two size components:
Go's `imageSize[1]` read panics on it. -/
def coverJsonShort : String := "\x7b\"u\":[7]\x7d"

/-- A page carrying `coverJsonShort` as its `data-a-dynamic-image`
attribute. -/
def coverPageShort : Document :=
  { nodeTexts := fun _ => []
    attr := fun sel name =>
      if sel = "#ebooksImgBlkFront" ∧ name = "data-a-dynamic-image" then some coverJsonShort
      else none }

/-- A size mapping with two entries whose strictly greatest height (5) is
positive. -/
def coverJsonTwo : String := "\x7b\"a\":[3,2],\"b\":[3,5]\x7d"

/-- A page carrying `coverJsonTwo` as its `data-a-dynamic-image` attribute. -/
def coverPageTwo : Document :=
  { nodeTexts := fun _ => []
    attr := fun sel name =>
      if sel = "#ebooksImgBlkFront" ∧ name = "data-a-dynamic-image" then some coverJsonTwo
      else none }

end Scraper

namespace Epub

/-- `TitleType` from the source. -/
inductive TitleType where
  | main
  | subtitle
  | short
  | collection
  | edition
  | expanded
deriving DecidableEq

/-- `TitleType.String()` from the source. -/
def TitleType.string : TitleType → String
  | .main => "main"
  | .subtitle => "subtitle"
  | .short => "short"
  | .collection => "collection"
  | .edition => "edition"
  | .expanded => "expanded"

/-- `ContributorRole` from the source. -/
inductive ContributorRole where
  | author
  | translator
  | editor
  | illustrator
deriving DecidableEq

/-- `ContributorRole.String()` from the source: the MARC relator codes. -/
def ContributorRole.string : ContributorRole → String
  | .author => "aut"
  | .translator => "trl"
  | .editor => "edt"
  | .illustrator => "ill"

/-- `BaseElement` from the source. -/
structure BaseElement where
  value : String
  xmlLanguage : String := ""
  id : String := ""
  textDirection : String := ""
deriving DecidableEq

/-- `MetaElement` from the source (the embedded `BaseElement` is flattened
into the four leading fields). -/
structure MetaElement where
  value : String
  xmlLanguage : String := ""
  id : String := ""
  textDirection : String := ""
  property : String
  refines : String := ""
  scheme : String := ""
deriving DecidableEq

/-- `ContributorElement` from the source. -/
structure ContributorElement where
  value : String
  id : String := ""
deriving DecidableEq

/-- `IdentifierElement` from the source. -/
structure IdentifierElement where
  value : String
  id : String
deriving DecidableEq

/-- `MetadataElement` from the source. -/
structure MetadataElement where
  xmlNamespace : String := ""
  identifier : List IdentifierElement := []
  titles : List BaseElement := []
  language : String := ""
  creators : List ContributorElement := []
  contributors : List ContributorElement := []
  date : String := ""
  description : BaseElement := { value := "" }
  publisher : BaseElement := { value := "" }
  metas : List MetaElement := []
deriving DecidableEq

/-- `OPF` from the source (the source field named `Prefix` is rendered as
`prefixAttr`). -/
structure OPF where
  uniqueID : String := ""
  version : String := ""
  xmlNamespace : String := ""
  xmlLanguage : String := ""
  id : String := ""
  prefixAttr : String := ""
  textDirection : String := ""
  metadata : MetadataElement := {}
deriving DecidableEq

/-- Go's `fmt.Sprintf("%02d", n)` for a nonnegative count: pad to width 2
with a leading zero. -/
def sprintf02d (n : Nat) : String := if n < 10 then "0" ++ toString n else toString n

/-- `(*OPF).AddTitle` from the source. -/
def AddTitle (opf : OPF) (title : String) (titleType : TitleType) : OPF :=
  let titleId := "title" ++ sprintf02d (opf.metadata.titles.length + 1)
  { opf with metadata := { opf.metadata with
      titles := opf.metadata.titles ++ [{ value := title, id := titleId }]
      metas := opf.metadata.metas ++
        [{ value := titleType.string, refines := "#" ++ titleId, property := "title-type" }] } }

/-- `(*OPF).SetModificationDate` from the source; the `time.Time` argument is
modelled by its `RFC3339` rendering, the only view the method takes of it. -/
def SetModificationDate (opf : OPF) (dateRFC3339 : String) : OPF :=
  { opf with metadata := { opf.metadata with
      metas := opf.metadata.metas ++
        [{ value := dateRFC3339, property := "dcterms:modified" }] } }

/-- `(*OPF).AddContributor` from the source: `Author` entries go to
`creators` with the next `creator%02d` id, every other role to `contributors`
with the next `contributor%02d` id; a companion `role` meta in the
`marc:relators` scheme refines the new id; the new element is returned. -/
def AddContributor (opf : OPF) (contributorName : String) (role : ContributorRole) :
    OPF × ContributorElement :=
  let cid := if role = .author then "creator" ++ sprintf02d (opf.metadata.creators.length + 1)
             else "contributor" ++ sprintf02d (opf.metadata.contributors.length + 1)
  let contributor : ContributorElement := { value := contributorName, id := cid }
  let withElem :=
    if role = .author then
      { opf with metadata := { opf.metadata with
          creators := opf.metadata.creators ++ [contributor] } }
    else
      { opf with metadata := { opf.metadata with
          contributors := opf.metadata.contributors ++ [contributor] } }
  ({ withElem with metadata := { withElem.metadata with
       metas := withElem.metadata.metas ++
         [{ value := role.string, refines := "#" ++ cid, property := "role",
            scheme := "marc:relators" }] } },
   contributor)

/-- `(*OPF).AddAlternateNameToContributor` from the source: unconditionally
appends an `alternate-script` meta refining `contributor.ID` (the
`language.Tag` argument is modelled by its string rendering). -/
def AddAlternateNameToContributor (opf : OPF) (contributor : ContributorElement)
    (script : String) (lang : String) : OPF :=
  { opf with metadata := { opf.metadata with
      metas := opf.metadata.metas ++
        [{ value := script, xmlLanguage := lang, refines := "#" ++ contributor.id,
           property := "alternate-script" }] } }

/-- `(*OPF).AddSortNameToContributor` from the source: unconditionally
appends a `file-as` meta refining `contributor.ID`. -/
def AddSortNameToContributor (opf : OPF) (contributor : ContributorElement)
    (sortName : String) : OPF :=
  { opf with metadata := { opf.metadata with
      metas := opf.metadata.metas ++
        [{ value := sortName, property := "file-as", refines := "#" ++ contributor.id,
           scheme := "" }] } }

/-- `(*OPF).SetDescription` from the source. -/
def SetDescription (opf : OPF) (description : String) : OPF :=
  { opf with metadata := { opf.metadata with description := { value := description } } }

/-- `(*OPF).SetPublisher` from the source. -/
def SetPublisher (opf : OPF) (publisher : String) : OPF :=
  { opf with metadata := { opf.metadata with publisher := { value := publisher } } }

/-- `(*OPF).SetPublicationDate` from the source (the `time.Time` argument
modelled by its `RFC3339` rendering). -/
def SetPublicationDate (opf : OPF) (dateRFC3339 : String) : OPF :=
  { opf with metadata := { opf.metadata with date := dateRFC3339 } }

/-- `NewOPF` from the source.  `uuid` stands for `uuid.New().String()` and
`now` for `time.Now()`'s `RFC3339` rendering; `lang` for `lang.String()`. -/
def NewOPF (epubVersion lang mainTitle mainAuthor uuid now : String) : OPF :=
  let opf : OPF :=
    { version := epubVersion
      xmlNamespace := "http://www.idpf.org/2007/opf"
      xmlLanguage := lang
      uniqueID := "pub_id"
      textDirection := "ltr"
      metadata :=
        { xmlNamespace := "http://purl.org/dc/elements/1.1/"
          identifier := [{ value := "urn:uuid:" ++ uuid, id := "pub_id" }]
          language := lang
          metas := [{ value := "uuid", refines := "#pub_id", property := "identifier-type" }] } }
  let opf := AddTitle opf mainTitle .main
  let opf := (AddContributor opf mainAuthor .author).1
  if epubVersion = "3.0" then SetModificationDate opf now else opf

/-- The mutations claim C1 ranges over. -/
inductive Op where
  | addTitle (title : String) (titleType : TitleType)
  | addContributor (name : String) (role : ContributorRole)
  | setModificationDate (dateRFC3339 : String)
  | setDescription (text : String)
  | setPublisher (text : String)
  | setPublicationDate (dateRFC3339 : String)

/-- Apply one builder mutation. -/
def applyOp (opf : OPF) : Op → OPF
  | .addTitle t ty => AddTitle opf t ty
  | .addContributor n r => (AddContributor opf n r).1
  | .setModificationDate d => SetModificationDate opf d
  | .setDescription s => SetDescription opf s
  | .setPublisher s => SetPublisher opf s
  | .setPublicationDate d => SetPublicationDate opf d

/-- The ids of the elements a `refines` attribute may target:
identifiers, titles, creators and contributors. -/
def elementIds (m : MetadataElement) : List String :=
  m.identifier.map (fun e => e.id) ++ m.titles.map (fun e => e.id) ++
  m.creators.map (fun e => e.id) ++ m.contributors.map (fun e => e.id)

/-- Referential integrity: every meta with a non-empty `refines` targets
`"#" ++ id` of an element present in the document. -/
def metasOK (opf : OPF) : Prop :=
  ∀ me ∈ opf.metadata.metas, me.refines ≠ "" →
    ∃ i ∈ elementIds opf.metadata, me.refines = "#" ++ i

/-- Iterated `AddTitle` over a list of (title, type) calls. -/
def addTitles (opf : OPF) (ps : List (String × TitleType)) : OPF :=
  ps.foldl (fun o p => AddTitle o p.1 p.2) opf

/-- Claim C5's expected title entries: values in call order with sequential
1-based ids `"title" ++ %02d`, starting after `n` existing titles. -/
def titlesFrom (n : Nat) : List (String × TitleType) → List BaseElement
  | [] => []
  | p :: ps => { value := p.1, id := "title" ++ sprintf02d (n + 1) } :: titlesFrom (n + 1) ps

/-- Claim C5's expected companion metas: a `title-type` meta per call whose
`refines` points at the corresponding title id and whose value is the call's
title-type name. -/
def titleMetasFrom (n : Nat) : List (String × TitleType) → List MetaElement
  | [] => []
  | p :: ps =>
    { value := p.2.string, refines := "#" ++ ("title" ++ sprintf02d (n + 1)),
      property := "title-type" } :: titleMetasFrom (n + 1) ps

/-- The zero value `OPF{}` of the document structure. -/
def emptyOPF : OPF := {}

/-- A contributor element that belongs to no document built here. -/
def ghostRef : ContributorElement := { value := "Ghost Writer", id := "ghost99" }

/-- A concrete freshly constructed document. -/
def sampleDoc : OPF :=
  NewOPF "3.0" "pt-BR" "Main Title" "Ana Author"
    "123e4567-e89b-12d3-a456-426614174000" "2020-01-01T00:00:00Z"

end Epub

open Scraper Epub

/-- C4 counterexample: on the concrete input of the claim the validator does
not return `"9788535931008"`. -/
theorem parseBookCode_8535931004_ne_claimed :
    parseBookCode "" "8535931004" ≠ Except.ok "9788535931008" := by
  intro h
  have e : parseBookCode "" "8535931004" = Except.ok "9788535931006" := rfl
  rw [e] at h
  exact absurd (Except.ok.inj h) (by decide)

/-- C4 amended: `validate("", "8535931004")` succeeds and returns the ISBN-13
`"9788535931006"` (the checksum of `978853593100` is 114, so the check digit
is `(10 - 114 % 10) % 10 = 6`). -/
theorem parseBookCode_8535931004 :
    parseBookCode "" "8535931004" = Except.ok "9788535931006" := rfl

/-- C6: `AddContributor` routes `Author` entries to `creators` and every
other role to `contributors`, assigns the next sequential zero-padded id
scoped to that category, appends exactly one companion
`{property: "role", scheme: "marc:relators", refines: "#"+id, value: role
code}` meta, and returns the new element. -/
theorem addContributor_spec (opf : OPF) (name : String) (role : ContributorRole) :
    (AddContributor opf name role).2.value = name
    ∧ (role = .author →
        (AddContributor opf name role).2.id
          = "creator" ++ sprintf02d (opf.metadata.creators.length + 1)
        ∧ (AddContributor opf name role).1.metadata.creators
          = opf.metadata.creators ++ [(AddContributor opf name role).2]
        ∧ (AddContributor opf name role).1.metadata.contributors
          = opf.metadata.contributors
        ∧ (AddContributor opf name role).1.metadata.metas
          = opf.metadata.metas ++
            [{ value := role.string, property := "role",
               refines := "#" ++ (AddContributor opf name role).2.id,
               scheme := "marc:relators" }])
    ∧ (role ≠ .author →
        (AddContributor opf name role).2.id
          = "contributor" ++ sprintf02d (opf.metadata.contributors.length + 1)
        ∧ (AddContributor opf name role).1.metadata.contributors
          = opf.metadata.contributors ++ [(AddContributor opf name role).2]
        ∧ (AddContributor opf name role).1.metadata.creators
          = opf.metadata.creators
        ∧ (AddContributor opf name role).1.metadata.metas
          = opf.metadata.metas ++
            [{ value := role.string, property := "role",
               refines := "#" ++ (AddContributor opf name role).2.id,
               scheme := "marc:relators" }]) := by
  cases role <;> simp [AddContributor]

/-- C6 witness: the claim's concrete scenario
`AddContributor("Jane Doe", Translator)` on a document with no
contributors. -/
theorem addContributor_spec_witness :
    ContributorRole.translator ≠ ContributorRole.author
    ∧ ((AddContributor emptyOPF "Jane Doe" ContributorRole.translator).2.id
        = "contributor" ++ sprintf02d (emptyOPF.metadata.contributors.length + 1)
       ∧ (AddContributor emptyOPF "Jane Doe" ContributorRole.translator).1.metadata.contributors
        = emptyOPF.metadata.contributors ++
            [(AddContributor emptyOPF "Jane Doe" ContributorRole.translator).2]
       ∧ (AddContributor emptyOPF "Jane Doe" ContributorRole.translator).1.metadata.creators
        = emptyOPF.metadata.creators
       ∧ (AddContributor emptyOPF "Jane Doe" ContributorRole.translator).1.metadata.metas
        = emptyOPF.metadata.metas ++
            [{ value := ContributorRole.translator.string, property := "role",
               refines := "#" ++ (AddContributor emptyOPF "Jane Doe" ContributorRole.translator).2.id,
               scheme := "marc:relators" }]) :=
  ⟨by decide,
   (addContributor_spec emptyOPF "Jane Doe" ContributorRole.translator).2.2 (by decide)⟩

/-- C7 counterexample: `AddSortNameToContributor` called with a contributor
reference that belongs to no sequence of the document still appends a meta
entry (the claim says it must fail and append none). -/
theorem addSortName_dangling :
    ((sampleDoc.metadata.creators ++ sampleDoc.metadata.contributors).all
      (fun c => c.id != "ghost99")) = true
    ∧ (AddSortNameToContributor sampleDoc ghostRef "Writer, Ghost").metadata.metas
        ≠ sampleDoc.metadata.metas := by
  refine ⟨by decide, fun h => ?_⟩
  have hlen := congrArg List.length h
  simp [AddSortNameToContributor] at hlen

/-- C7 amended: both contributor-refining operations are total and never
fail: each unconditionally appends exactly one meta refining
`"#" ++ ref.id`, with no membership validation of the reference against the
document. -/
theorem addRefiningMeta_total (opf : OPF) (c : ContributorElement)
    (script lang sortName : String) :
    (AddAlternateNameToContributor opf c script lang).metadata.metas
      = opf.metadata.metas ++
        [{ value := script, xmlLanguage := lang, refines := "#" ++ c.id,
           property := "alternate-script" }]
    ∧ (AddSortNameToContributor opf c sortName).metadata.metas
      = opf.metadata.metas ++
        [{ value := sortName, property := "file-as", refines := "#" ++ c.id,
           scheme := "" }] :=
  ⟨rfl, rfl⟩

/-- C8: `getBookAuthors` queries the empty selector (`Find("")` matches
nothing) instead of the declared `".author > a"` rule, so it returns an empty
author list for every page — here a page whose `".author > a"` nodes hold
`"Jane Doe"`. -/
theorem getBookAuthors_ignores_selector :
    (∀ doc : Document, getBookAuthors doc = Except.ok [])
    ∧ authorsPage.nodeTexts ".author > a" = ["Jane Doe"] :=
  ⟨fun _ => rfl, by decide⟩

/-- C9 counterexample: a present, well-formed size mapping whose single
entry's height is 0 — that height is (vacuously) the strict maximum across
all entries, yet the scan (whose accumulator starts at 0) selects no URL and
the function succeeds with the empty URL. -/
theorem getBookCover_zero_height :
    parseImageMap coverJsonZero = Except.ok [("u", [1, 0])]
    ∧ getBookCover coverPageZero = CoverOutcome.ok ""
    ∧ coverPageZero.attr "#ebooksImgBlkFront" "data-a-dynamic-image" = some coverJsonZero := by
  refine ⟨rfl, rfl, by decide⟩

/-- C3 counterexample: `"1234"` has digit count 4 — neither 10 nor 13 — yet
the validator accepts it, because the source pattern
`^(?:\d[\d-]{0,4}){3}[\dX]$` never counts digits. -/
theorem parseBookCode_accepts_1234 :
    (parseBookCode "" "1234").isOk = true ∧ specIsbnShape "1234" = false := by
  refine ⟨rfl, by decide⟩

/-- C10: whenever the validator (with empty ASIN) accepts an `isbn` whose
character length is not exactly 10, it returns the input verbatim — hyphens
retained, no ISBN-10→13 conversion — because conversion is keyed on
`len(isbn) == 10`, not on the digit count. -/
theorem parseBookCode_nonlength10_verbatim (isbn : String)
    (h1 : (parseBookCode "" isbn).isOk = true) (h2 : isbn.length ≠ 10) :
    parseBookCode "" isbn = Except.ok isbn := by
  by_cases he : isbn = ""
  · subst he; simp [parseBookCode, Except.isOk, Except.toBool] at h1
  · by_cases hm : isbnPatternMatches isbn
    · simp [parseBookCode, he, hm, h2]
    · simp [parseBookCode, he, hm, Except.isOk, Except.toBool] at h1

/-- C10 witness: the accepted hyphenated 10-digit form `"85-359-3100-4"`
(13 characters) comes back unconverted and unnormalized. -/
theorem parseBookCode_nonlength10_verbatim_witness :
    ((parseBookCode "" "85-359-3100-4").isOk = true ∧ "85-359-3100-4".length ≠ 10)
    ∧ parseBookCode "" "85-359-3100-4" = Except.ok "85-359-3100-4" :=
  ⟨⟨by decide, by decide⟩,
   parseBookCode_nonlength10_verbatim "85-359-3100-4" (by decide) (by decide)⟩

/-- Applying any builder mutation never removes an element id. -/
theorem elementIds_applyOp_mono (opf : OPF) (op : Op) :
    ∀ i ∈ elementIds opf.metadata, i ∈ elementIds (applyOp opf op).metadata := by
  intro i hi
  cases op with
  | addTitle t ty =>
    simp only [applyOp, AddTitle, elementIds, List.map_append, List.mem_append] at hi ⊢
    tauto
  | addContributor n r =>
    cases r <;>
      simp only [applyOp, AddContributor, elementIds, List.map_append, List.mem_append,
        reduceCtorEq, if_true, if_false, ite_true, ite_false, reduceIte] at hi ⊢ <;>
      tauto
  | setModificationDate d => simpa [applyOp, SetModificationDate, elementIds] using hi
  | setDescription s => simpa [applyOp, SetDescription, elementIds] using hi
  | setPublisher s => simpa [applyOp, SetPublisher, elementIds] using hi
  | setPublicationDate d => simpa [applyOp, SetPublicationDate, elementIds] using hi

/-- Appending one meta whose target id exists (or whose `refines` is empty)
preserves referential integrity, as long as element ids are kept. -/
theorem metasOK_append_meta {opf opf' : OPF} (m : MetaElement)
    (hm : opf'.metadata.metas = opf.metadata.metas ++ [m])
    (hmono : ∀ i ∈ elementIds opf.metadata, i ∈ elementIds opf'.metadata)
    (htarget : m.refines = "" ∨ ∃ i ∈ elementIds opf'.metadata, m.refines = "#" ++ i)
    (h : metasOK opf) : metasOK opf' := by
  intro me hme hr
  rcases List.mem_append.1 (hm ▸ hme) with hold | hnew
  · obtain ⟨i, hi, hei⟩ := h me hold hr
    exact ⟨i, hmono i hi, hei⟩
  · have hme2 : me = m := List.mem_singleton.1 hnew
    subst hme2
    rcases htarget with h0 | h0
    · exact absurd h0 hr
    · exact h0

/-- A mutation that does not touch the metas preserves referential
integrity, as long as element ids are kept. -/
theorem metasOK_same_metas {opf opf' : OPF}
    (hm : opf'.metadata.metas = opf.metadata.metas)
    (hmono : ∀ i ∈ elementIds opf.metadata, i ∈ elementIds opf'.metadata)
    (h : metasOK opf) : metasOK opf' := by
  intro me hme hr
  obtain ⟨i, hi, hei⟩ := h me (hm ▸ hme) hr
  exact ⟨i, hmono i hi, hei⟩

/-- Every builder mutation preserves referential integrity of the metas. -/
theorem metasOK_applyOp {opf : OPF} (h : metasOK opf) (op : Op) :
    metasOK (applyOp opf op) := by
  cases op with
  | addTitle t ty =>
    exact @metasOK_append_meta opf (applyOp opf (.addTitle t ty)) _ rfl
      (elementIds_applyOp_mono opf (.addTitle t ty))
      (Or.inr ⟨"title" ++ sprintf02d (opf.metadata.titles.length + 1),
        by simp [applyOp, AddTitle, elementIds], rfl⟩) h
  | addContributor n r =>
    cases r with
    | author =>
      exact @metasOK_append_meta opf (applyOp opf (.addContributor n .author)) _ rfl
        (elementIds_applyOp_mono opf (.addContributor n .author))
        (Or.inr ⟨"creator" ++ sprintf02d (opf.metadata.creators.length + 1),
          by simp [applyOp, AddContributor, elementIds], rfl⟩) h
    | translator =>
      exact @metasOK_append_meta opf (applyOp opf (.addContributor n .translator)) _ rfl
        (elementIds_applyOp_mono opf (.addContributor n .translator))
        (Or.inr ⟨"contributor" ++ sprintf02d (opf.metadata.contributors.length + 1),
          by simp [applyOp, AddContributor, elementIds], rfl⟩) h
    | editor =>
      exact @metasOK_append_meta opf (applyOp opf (.addContributor n .editor)) _ rfl
        (elementIds_applyOp_mono opf (.addContributor n .editor))
        (Or.inr ⟨"contributor" ++ sprintf02d (opf.metadata.contributors.length + 1),
          by simp [applyOp, AddContributor, elementIds], rfl⟩) h
    | illustrator =>
      exact @metasOK_append_meta opf (applyOp opf (.addContributor n .illustrator)) _ rfl
        (elementIds_applyOp_mono opf (.addContributor n .illustrator))
        (Or.inr ⟨"contributor" ++ sprintf02d (opf.metadata.contributors.length + 1),
          by simp [applyOp, AddContributor, elementIds], rfl⟩) h
  | setModificationDate d =>
    exact @metasOK_append_meta opf (applyOp opf (.setModificationDate d)) _ rfl
      (elementIds_applyOp_mono opf (.setModificationDate d)) (Or.inl rfl) h
  | setDescription s =>
    exact @metasOK_same_metas opf (applyOp opf (.setDescription s)) rfl
      (elementIds_applyOp_mono opf (.setDescription s)) h
  | setPublisher s =>
    exact @metasOK_same_metas opf (applyOp opf (.setPublisher s)) rfl
      (elementIds_applyOp_mono opf (.setPublisher s)) h
  | setPublicationDate d =>
    exact @metasOK_same_metas opf (applyOp opf (.setPublicationDate d)) rfl
      (elementIds_applyOp_mono opf (.setPublicationDate d)) h

/-- A freshly constructed document satisfies referential integrity. -/
theorem metasOK_NewOPF (version lang mainTitle mainAuthor uuid now : String) :
    metasOK (NewOPF version lang mainTitle mainAuthor uuid now) := by
  have hbase : metasOK
      ({ version := version
         xmlNamespace := "http://www.idpf.org/2007/opf"
         xmlLanguage := lang
         uniqueID := "pub_id"
         textDirection := "ltr"
         metadata :=
           { xmlNamespace := "http://purl.org/dc/elements/1.1/"
             identifier := [{ value := "urn:uuid:" ++ uuid, id := "pub_id" }]
             language := lang
             metas := [{ value := "uuid", refines := "#pub_id",
                         property := "identifier-type" }] } } : OPF) := by
    intro me hme hr
    have hm : me = { value := "uuid", refines := "#pub_id", property := "identifier-type" } := by
      simpa using hme
    exact ⟨"pub_id", by simp [elementIds], hm ▸ rfl⟩

  have h1 := metasOK_applyOp hbase (Op.addTitle mainTitle .main)
  have h2 := metasOK_applyOp h1 (Op.addContributor mainAuthor .author)
  unfold NewOPF
  by_cases hv : version = "3.0"
  · rw [if_pos hv]
    exact metasOK_applyOp h2 (Op.setModificationDate now)
  · rw [if_neg hv]
    exact h2


/-- C1: any document built by constructing an OPF and applying any sequence
of `AddTitle`, `AddContributor`, `SetModificationDate`, `SetDescription`,
`SetPublisher` and `SetPublicationDate` calls satisfies referential
integrity: every meta with a non-empty `refines` equals `"#" + id` of an
identifier, title, creator or contributor element of the document (elements
are appended before their companion metas and never removed, so the target
is present from the moment the meta is appended). -/
theorem builder_no_dangling_refines (ops : List Op)
    (version lang mainTitle mainAuthor uuid now : String) :
    metasOK (ops.foldl applyOp (NewOPF version lang mainTitle mainAuthor uuid now)) := by
  have hsteps : ∀ (l : List Op) (o : OPF), metasOK o → metasOK (l.foldl applyOp o) := by
    intro l
    induction l with
    | nil => exact fun o h => h
    | cons op l ih => exact fun o h => ih _ (metasOK_applyOp h op)
  exact hsteps ops _ (metasOK_NewOPF version lang mainTitle mainAuthor uuid now)

/-- Iterated `AddTitle` appends title entries with sequential ids starting
after the existing titles, and appends the matching companion metas. -/
theorem addTitles_go (ps : List (String × TitleType)) :
    ∀ opf : OPF,
      (addTitles opf ps).metadata.titles
        = opf.metadata.titles ++ titlesFrom opf.metadata.titles.length ps
      ∧ (addTitles opf ps).metadata.metas
        = opf.metadata.metas ++ titleMetasFrom opf.metadata.titles.length ps := by
  induction ps with
  | nil => intro opf; simp [addTitles, titlesFrom, titleMetasFrom]
  | cons p ps ih =>
    intro opf
    have hstep : addTitles opf (p :: ps) = addTitles (AddTitle opf p.1 p.2) ps := rfl
    have hlen : (AddTitle opf p.1 p.2).metadata.titles.length
        = opf.metadata.titles.length + 1 := by
      simp [AddTitle]
    obtain ⟨ht, hm⟩ := ih (AddTitle opf p.1 p.2)
    rw [hlen] at ht hm
    constructor
    · rw [hstep, ht]
      show opf.metadata.titles ++ [_] ++ _ = _
      rw [List.append_assoc]
      rfl
    · rw [hstep, hm]
      show opf.metadata.metas ++ [_] ++ _ = _
      rw [List.append_assoc]
      rfl

/-- C5: starting from a document with no titles, `N` `AddTitle` calls
produce exactly `N` title entries whose ids are `title01, title02, …` —
sequential, 1-based, zero-padded to two digits, in insertion order — and
append `N` companion `title-type` metas, the k-th refining `"#" + `the k-th
title's id with the k-th call's title-type name as value. -/
theorem addTitles_ids (opf : OPF) (ps : List (String × TitleType))
    (h : opf.metadata.titles = []) :
    (addTitles opf ps).metadata.titles = titlesFrom 0 ps
    ∧ (addTitles opf ps).metadata.metas
        = opf.metadata.metas ++ titleMetasFrom 0 ps := by
  obtain ⟨ht, hm⟩ := addTitles_go ps opf
  rw [h] at ht hm
  exact ⟨by simpa using ht, by simpa using hm⟩

/-- C5 witness: two `AddTitle` calls on the zero-value document yield ids
`title01`, `title02` with matching `title-type` metas. -/
theorem addTitles_ids_witness :
    (emptyOPF.metadata.titles = []
     ∧ (addTitles emptyOPF [("Dune", TitleType.main), ("Duna", TitleType.subtitle)]).metadata.titles
        = titlesFrom 0 [("Dune", TitleType.main), ("Duna", TitleType.subtitle)]
     ∧ (addTitles emptyOPF [("Dune", TitleType.main), ("Duna", TitleType.subtitle)]).metadata.metas
        = emptyOPF.metadata.metas
          ++ titleMetasFrom 0 [("Dune", TitleType.main), ("Duna", TitleType.subtitle)])
    ∧ (addTitles emptyOPF [("Dune", TitleType.main), ("Duna", TitleType.subtitle)]).metadata.titles.map
        (fun t => t.id) = ["title01", "title02"]
    ∧ (addTitles emptyOPF [("Dune", TitleType.main), ("Duna", TitleType.subtitle)]).metadata.metas.map
        (fun m => (m.property, m.refines, m.value))
      = [("title-type", "#title01", "main"), ("title-type", "#title02", "subtitle")] :=
  ⟨⟨rfl,
    (addTitles_ids emptyOPF [("Dune", TitleType.main), ("Duna", TitleType.subtitle)] rfl).1,
    (addTitles_ids emptyOPF [("Dune", TitleType.main), ("Duna", TitleType.subtitle)] rfl).2⟩,
   by decide, by decide⟩

/-- The cover scan never moves off an accumulator no later entry beats. -/
theorem coverFold_stay (l : List (String × List Int)) :
    ∀ acc : String × Int, (∀ p ∈ l, ¬(p.2.getD 1 0 > acc.2)) →
      l.foldl coverStep acc = acc := by
  induction l with
  | nil => intro acc _; rfl
  | cons p l ih =>
    intro acc h
    have hp := h p (by simp)
    simp only [List.foldl_cons, coverStep, if_neg hp]
    exact ih acc (fun q hq => h q (by simp [hq]))

/-- The cover scan returns the entry whose height strictly dominates every
other entry, as soon as that height beats the starting accumulator. -/
theorem coverFold_picks (u : String) (sz : List Int) (l : List (String × List Int)) :
    ∀ acc : String × Int,
      (u, sz) ∈ l → acc.2 < sz.getD 1 0 →
      (∀ p ∈ l, p ≠ (u, sz) → p.2.getD 1 0 < sz.getD 1 0) →
      l.foldl coverStep acc = (u, sz.getD 1 0) := by
  induction l with
  | nil => intro acc hm; simp at hm
  | cons p l ih =>
    intro acc hm hacc hall
    by_cases hp : p = (u, sz)
    · subst hp
      simp only [List.foldl_cons, coverStep, if_pos hacc]
      apply coverFold_stay
      intro q hq
      by_cases hque : q = (u, sz)
      · subst hque; simp
      · have hlt := hall q (by simp [hq]) hque
        simp only [gt_iff_lt, not_lt]
        exact le_of_lt hlt
    · have hm2 : (u, sz) ∈ l := by
        rcases List.mem_cons.1 hm with he | hmem
        · exact absurd he.symm hp
        · exact hmem
      have hpl : p.2.getD 1 0 < sz.getD 1 0 := hall p (by simp) hp
      simp only [List.foldl_cons]
      have hacc2 : (coverStep acc p).2 < sz.getD 1 0 := by
        unfold coverStep
        by_cases hb : p.2.getD 1 0 > acc.2
        · rw [if_pos hb]; exact hpl
        · rw [if_neg hb]; exact hacc
      exact ih (coverStep acc p) hm2 hacc2 (fun q hq hqne => hall q (by simp [hq]) hqne)

/-- C9 amended: when every size array has at least two components and the
strictly maximal height of the mapping is positive, `getBookCover` selects
its URL whatever the (randomized) map iteration order is (`coverFold_picks`
holds for an arbitrary entry order); an absent attribute makes `Attr` yield
`""`, whose unmarshalling fails, and any unmarshalling failure is returned
as the error; an entry with fewer than two size components makes the Go
program panic rather than return.  (The scan's accumulator starts at height
0, so a mapping whose maximal height is ≤ 0 — see the counterexample —
yields the empty URL instead.) -/
theorem getBookCover_spec (doc : Document) :
    (doc.attr "#ebooksImgBlkFront" "data-a-dynamic-image" = none →
      getBookCover doc = CoverOutcome.err "unexpected end of JSON input")
    ∧ (∀ raw e, doc.attr "#ebooksImgBlkFront" "data-a-dynamic-image" = some raw →
        parseImageMap raw = Except.error e → getBookCover doc = CoverOutcome.err e)
    ∧ (∀ raw entries, doc.attr "#ebooksImgBlkFront" "data-a-dynamic-image" = some raw →
        parseImageMap raw = Except.ok entries →
        entries.all (fun p => 2 ≤ p.2.length) = false →
        getBookCover doc = CoverOutcome.panics "runtime error: index out of range")
    ∧ (∀ raw entries u sz, doc.attr "#ebooksImgBlkFront" "data-a-dynamic-image" = some raw →
        parseImageMap raw = Except.ok entries →
        entries.all (fun p => 2 ≤ p.2.length) = true →
        (u, sz) ∈ entries →
        0 < sz.getD 1 0 →
        (∀ p ∈ entries, p ≠ (u, sz) → p.2.getD 1 0 < sz.getD 1 0) →
        getBookCover doc = CoverOutcome.ok u) := by
  refine ⟨fun h => ?_, fun raw e ha hp => ?_, fun raw entries ha hp hshort => ?_,
    fun raw entries u sz ha hp hlen hm hpos hall => ?_⟩
  · unfold getBookCover
    rw [h]
    rfl
  · unfold getBookCover
    rw [ha]
    simp [hp]
  · unfold getBookCover
    rw [ha]
    simp only [Option.getD_some, hp]
    rw [if_neg (by simp [hshort])]
  · unfold getBookCover
    rw [ha]
    simp only [Option.getD_some, hp]
    rw [if_pos hlen, coverFold_picks u sz entries ("", 0) hm hpos hall]

/-- C9 witness: a mapping with heights 2 and 5 — all arrays have two
components and the strict maximum 5 is positive, so its URL `"b"` is
selected; and a mapping whose only array has one component, on which the
program panics. -/
theorem getBookCover_spec_witness :
    (coverPageTwo.attr "#ebooksImgBlkFront" "data-a-dynamic-image" = some coverJsonTwo
     ∧ parseImageMap coverJsonTwo = Except.ok [("a", [3, 2]), ("b", [3, 5])]
     ∧ ([("a", ([3, 2] : List Int)), ("b", [3, 5])].all (fun p => 2 ≤ p.2.length) = true)
     ∧ ("b", ([3, 5] : List Int)) ∈ [("a", ([3, 2] : List Int)), ("b", [3, 5])]
     ∧ 0 < ([3, 5] : List Int).getD 1 0
     ∧ (∀ p ∈ [("a", ([3, 2] : List Int)), ("b", [3, 5])],
          p ≠ ("b", ([3, 5] : List Int)) → p.2.getD 1 0 < ([3, 5] : List Int).getD 1 0))
    ∧ getBookCover coverPageTwo = CoverOutcome.ok "b"
    ∧ (parseImageMap coverJsonShort = Except.ok [("u", [7])]
       ∧ ([("u", ([7] : List Int))].all (fun p => 2 ≤ p.2.length) = false)
       ∧ getBookCover coverPageShort
           = CoverOutcome.panics "runtime error: index out of range") :=
  ⟨⟨rfl, rfl, by decide, by decide, by decide, by decide⟩,
   (getBookCover_spec coverPageTwo).2.2.2 coverJsonTwo [("a", [3, 2]), ("b", [3, 5])] "b" [3, 5]
     rfl rfl (by decide) (by decide) (by decide) (by decide),
   ⟨rfl, by decide,
    (getBookCover_spec coverPageShort).2.2.1 coverJsonShort [("u", [7])] rfl rfl (by decide)⟩⟩

/-- Dropping a prefix preserves the all-digits property. -/
theorem all_isDigitChar_drop (l : List Char) (j : Nat)
    (h : l.all isDigitChar = true) : (l.drop j).all isDigitChar = true := by
  rw [List.all_eq_true] at h ⊢
  exact fun x hx => h x (List.drop_subset _ _ hx)

/-- On all-digit input, `upTo k` reaches exactly the suffixes obtained by
dropping at most `min k |l|` characters. -/
theorem upTo_any (p : List Char → Bool) : ∀ (k : Nat) (l : List Char),
    l.all isDigitChar = true →
    ((upTo k l).any p = true ↔ ∃ j, j ≤ min k l.length ∧ p (l.drop j) = true) := by
  intro k
  induction k with
  | zero =>
    intro l _
    cases l with
    | nil =>
      simp only [upTo, List.any_cons, List.any_nil, Bool.or_false, List.length_nil,
        Nat.min_zero, Nat.le_zero]
      constructor
      · intro h; exact ⟨0, rfl, by simpa using h⟩
      · rintro ⟨j, hj, hp⟩; subst hj; simpa using hp
    | cons c l =>
      simp only [upTo, List.any_cons, List.any_nil, Bool.or_false, Nat.zero_min,
        Nat.le_zero]
      constructor
      · intro h; exact ⟨0, rfl, by simpa using h⟩
      · rintro ⟨j, hj, hp⟩; subst hj; simpa using hp
  | succ k ih =>
    intro l hall
    cases l with
    | nil =>
      simp only [upTo, List.any_cons, List.any_nil, Bool.or_false, List.length_nil,
        Nat.min_zero, Nat.le_zero]
      constructor
      · intro h; exact ⟨0, rfl, by simpa using h⟩
      · rintro ⟨j, hj, hp⟩; subst hj; simpa using hp
    | cons c l =>
      have hall2 := hall
      rw [List.all_cons, Bool.and_eq_true] at hall2
      obtain ⟨hc, hl⟩ := hall2
      have hdash : isDigitOrDash c = true := by simp [isDigitOrDash, hc]
      have hrw : upTo (k + 1) (c :: l) = (c :: l) :: upTo k l := by
        simp [upTo, hdash]
      rw [hrw, List.any_cons, Bool.or_eq_true, ih l hl]
      simp only [List.length_cons]
      constructor
      · rintro (h0 | ⟨j, hj, hp⟩)
        · exact ⟨0, by omega, by simpa using h0⟩
        · exact ⟨j + 1, by omega, by simpa [List.drop_succ_cons] using hp⟩
      · rintro ⟨j, hj, hp⟩
        cases j with
        | zero => exact Or.inl (by simpa using hp)
        | succ j => exact Or.inr ⟨j, by omega, by simpa [List.drop_succ_cons] using hp⟩

/-- On all-digit input the final `[\dX]` matches exactly the singleton
lists. -/
theorem matchTail_digits (l : List Char) (h : l.all isDigitChar = true) :
    (matchTail l = true ↔ l.length = 1) := by
  cases l with
  | nil => simp [matchTail]
  | cons c l =>
    cases l with
    | cons d l => simp [matchTail]
    | nil =>
      rw [List.all_cons, Bool.and_eq_true] at h
      simp [matchTail, h.1]

/-- On all-digit input, `n + 1` pattern groups match exactly the lengths
from `n + 2` to `5 * n + 6`: each group takes 1–5 characters and the tail
takes one. -/
theorem matchGroups_digits : ∀ (n : Nat) (l : List Char),
    l.all isDigitChar = true →
    (matchGroups n l = true ↔ n + 1 ≤ l.length ∧ l.length ≤ 5 * n + 1) := by
  intro n
  induction n with
  | zero =>
    intro l h
    rw [show matchGroups 0 l = matchTail l from rfl, matchTail_digits l h]
    omega
  | succ n ih =>
    intro l hall
    cases l with
    | nil => simp [matchGroups]
    | cons c l =>
      have hall2 := hall
      rw [List.all_cons, Bool.and_eq_true] at hall2
      obtain ⟨hc, hl⟩ := hall2
      rw [show matchGroups (n + 1) (c :: l)
            = (isDigitChar c && (upTo 4 l).any (fun r => matchGroups n r)) from rfl,
        hc, Bool.true_and, upTo_any (fun r => matchGroups n r) 4 l hl]
      constructor
      · rintro ⟨j, hj, hp⟩
        rw [ih (l.drop j) (all_isDigitChar_drop l j hl)] at hp
        rw [List.length_drop] at hp
        simp only [List.length_cons]
        omega
      · rintro ⟨h1, h2⟩
        simp only [List.length_cons] at h1 h2
        refine ⟨min 4 (l.length - (n + 1)), by omega, ?_⟩
        rw [ih (l.drop _) (all_isDigitChar_drop l _ hl), List.length_drop]
        omega

/-- C3 amended: with an empty ASIN, validation succeeds exactly when the
ISBN matches the source pattern `^(?:\d[\d-]{0,4}){3}[\dX]$` — three blocks,
each a digit followed by up to four digits-or-hyphens, then one digit or
`X` — and fails with the `InvalidIsbn` error (`"invalid ISBN code"`) on every
non-empty ISBN the pattern rejects; the pattern never counts digits, so on
hyphen-free all-digit strings acceptance is equivalent to the length lying
between 4 and 16 (digit counts 10 and 13 are accepted, but so is every
other length in that range). -/
theorem parseBookCode_isbn_acceptance (isbn : String) :
    ((parseBookCode "" isbn).isOk = isbnPatternMatches isbn)
    ∧ (isbn ≠ "" → isbnPatternMatches isbn = false →
        parseBookCode "" isbn = Except.error "invalid ISBN code")
    ∧ (isbn.data.all isDigitChar = true →
        ((parseBookCode "" isbn).isOk = true ↔ 4 ≤ isbn.length ∧ isbn.length ≤ 16)) := by
  have h1 : (parseBookCode "" isbn).isOk = isbnPatternMatches isbn := by
    by_cases he : isbn = ""
    · subst he; rfl
    · by_cases hm : isbnPatternMatches isbn
      · by_cases hl : isbn.length = 10 <;>
          simp [parseBookCode, he, hm, hl, Except.isOk, Except.toBool]
      · simp [parseBookCode, he, hm, Except.isOk, Except.toBool]
  refine ⟨h1, fun he hm => ?_, fun hd => ?_⟩
  · simp [parseBookCode, he, hm]
  · rw [h1]
    have h2 := matchGroups_digits 3 isbn.data hd
    show matchGroups 3 isbn.data = true ↔ 4 ≤ isbn.data.length ∧ isbn.data.length ≤ 16
    rw [h2]

/-- C3 amended witness: the all-digit string `"1234567890"` (length 10,
accepted), and the all-digit string of length 17 (rejected with the
`InvalidIsbn` error). -/
theorem parseBookCode_isbn_acceptance_witness :
    ("1234567890".data.all isDigitChar = true
     ∧ ((parseBookCode "" "1234567890").isOk = true
         ↔ 4 ≤ "1234567890".length ∧ "1234567890".length ≤ 16))
    ∧ ("12345678901234567" ≠ ""
       ∧ isbnPatternMatches "12345678901234567" = false
       ∧ parseBookCode "" "12345678901234567" = Except.error "invalid ISBN code") :=
  ⟨⟨by decide, (parseBookCode_isbn_acceptance "1234567890").2.2 (by decide)⟩,
   ⟨by decide, by decide,
    (parseBookCode_isbn_acceptance "12345678901234567").2.1 (by decide) (by decide)⟩⟩

/-- A digit character's value lies in `[0, 9]`. -/
theorem charVal_bounds (c : Char) (h : isDigitChar c = true) :
    0 ≤ charVal c ∧ charVal c ≤ 9 := by
  simp only [isDigitChar, Bool.and_eq_true, decide_eq_true_eq] at h
  unfold charVal
  omega

/-- `strconv.Itoa` of a single-digit value is the matching digit character,
whose value is that digit. -/
theorem itoa_digit (n : Nat) (h : n ≤ 9) :
    (toString ((n : Int))).data = [Char.ofNat (48 + n)]
    ∧ charVal (Char.ofNat (48 + n)) = (n : Int)
    ∧ isDigitChar (Char.ofNat (48 + n)) = true := by
  interval_cases n <;> refine ⟨by decide, by decide, by decide⟩

/-- Core of claim C2, at the character-list level. -/
theorem isbn_core (l : List Char) (hlen : l.length = 10)
    (hdig : l.all isDigitChar = true) :
    (isbn10ToIsbn13L l).length = 13
    ∧ (isbn10ToIsbn13L l).all isDigitChar = true
    ∧ (isbn10ToIsbn13L l).take 12 = '9' :: '7' :: '8' :: l.take 9
    ∧ charVal ((isbn10ToIsbn13L l).getD 12 ' ')
        = (10 - (specAltSum false ((isbn10ToIsbn13L l).take 12)) % 10) % 10 := by
  rcases l with _ | ⟨c0, l⟩
  · simp at hlen
  rcases l with _ | ⟨c1, l⟩
  · simp at hlen
  rcases l with _ | ⟨c2, l⟩
  · simp at hlen
  rcases l with _ | ⟨c3, l⟩
  · simp at hlen
  rcases l with _ | ⟨c4, l⟩
  · simp at hlen
  rcases l with _ | ⟨c5, l⟩
  · simp at hlen
  rcases l with _ | ⟨c6, l⟩
  · simp at hlen
  rcases l with _ | ⟨c7, l⟩
  · simp at hlen
  rcases l with _ | ⟨c8, l⟩
  · simp at hlen
  rcases l with _ | ⟨c9, l⟩
  · simp at hlen
  rcases l with _ | ⟨c10, l⟩
  swap
  · simp at hlen
  simp only [List.all_cons, List.all_nil, Bool.and_eq_true, Bool.and_true] at hdig
  obtain ⟨hd0, hd1, hd2, hd3, hd4, hd5, hd6, hd7, hd8, hd9⟩ := hdig
  obtain ⟨hb0l, hb0r⟩ := charVal_bounds c0 hd0
  obtain ⟨hb1l, hb1r⟩ := charVal_bounds c1 hd1
  obtain ⟨hb2l, hb2r⟩ := charVal_bounds c2 hd2
  obtain ⟨hb3l, hb3r⟩ := charVal_bounds c3 hd3
  obtain ⟨hb4l, hb4r⟩ := charVal_bounds c4 hd4
  obtain ⟨hb5l, hb5r⟩ := charVal_bounds c5 hd5
  obtain ⟨hb6l, hb6r⟩ := charVal_bounds c6 hd6
  obtain ⟨hb7l, hb7r⟩ := charVal_bounds c7 hd7
  obtain ⟨hb8l, hb8r⟩ := charVal_bounds c8 hd8
  have e9 : charVal '9' = 9 := by decide
  have e7 : charVal '7' = 7 := by decide
  have e8 : charVal '8' = 8 := by decide
  have hS : checksumLoop ('9' :: '7' :: '8' :: [c0, c1, c2, c3, c4, c5, c6, c7, c8]) 0 0
      = 38 + 3 * charVal c0 + charVal c1 + 3 * charVal c2 + charVal c3 + 3 * charVal c4
        + charVal c5 + 3 * charVal c6 + charVal c7 + 3 * charVal c8 := by
    simp [checksumLoop, e9, e7, e8]
    try ring
  have hAlt : specAltSum false ('9' :: '7' :: '8' :: [c0, c1, c2, c3, c4, c5, c6, c7, c8])
      = 38 + 3 * charVal c0 + charVal c1 + 3 * charVal c2 + charVal c3 + 3 * charVal c4
        + charVal c5 + 3 * charVal c6 + charVal c7 + 3 * charVal c8 := by
    simp [specAltSum, e9, e7, e8]
    try ring
  obtain ⟨m, hm⟩ : ∃ m : Nat,
      checksumLoop ('9' :: '7' :: '8' :: [c0, c1, c2, c3, c4, c5, c6, c7, c8]) 0 0
        = (m : Int) := by
    refine ⟨(checksumLoop ('9' :: '7' :: '8' :: [c0, c1, c2, c3, c4, c5, c6, c7, c8]) 0 0).toNat, ?_⟩
    rw [hS]
    omega
  have htmod : Int.tmod ((m : Nat) : Int) 10 = (((m % 10 : Nat)) : Int) := rfl
  obtain ⟨dv, hdv9, hdveq, hdvmod⟩ : ∃ dv : Nat, dv ≤ 9
      ∧ (if (10 - ((m % 10 : Nat) : Int)) = 10 then (0 : Int)
         else 10 - ((m % 10 : Nat) : Int)) = (dv : Int)
      ∧ (dv : Int) = (10 - ((m : Int)) % 10) % 10 := by
    by_cases h10 : m % 10 = 0
    · refine ⟨0, by omega, by rw [if_pos (by rw [h10]; rfl)]; rfl, by omega⟩
    · refine ⟨10 - m % 10, by omega, ?_, by omega⟩
      rw [if_neg (by omega)]
      omega
  obtain ⟨hitoa, hval, hdigit⟩ := itoa_digit dv hdv9
  have hfinal : isbn10ToIsbn13L [c0, c1, c2, c3, c4, c5, c6, c7, c8, c9]
      = ('9' :: '7' :: '8' :: [c0, c1, c2, c3, c4, c5, c6, c7, c8]) ++ [Char.ofNat (48 + dv)] := by
    show ('9' :: '7' :: '8' :: [c0, c1, c2, c3, c4, c5, c6, c7, c8])
        ++ (toString (if (10 - Int.tmod (checksumLoop
              ('9' :: '7' :: '8' :: [c0, c1, c2, c3, c4, c5, c6, c7, c8]) 0 0) 10) = 10
            then (0 : Int)
            else 10 - Int.tmod (checksumLoop
              ('9' :: '7' :: '8' :: [c0, c1, c2, c3, c4, c5, c6, c7, c8]) 0 0) 10)).data
        = _
    rw [hm, htmod, hdveq, hitoa]
  have hpre12 : (('9' :: '7' :: '8' :: [c0, c1, c2, c3, c4, c5, c6, c7, c8])
      ++ [Char.ofNat (48 + dv)]).take 12
      = '9' :: '7' :: '8' :: [c0, c1, c2, c3, c4, c5, c6, c7, c8] := by
    have h12 : ('9' :: '7' :: '8' :: [c0, c1, c2, c3, c4, c5, c6, c7, c8]).length = 12 := rfl
    rw [← h12, List.take_left]
  refine ⟨?_, ?_, ?_, ?_⟩
  · rw [hfinal]; simp
  · rw [hfinal]
    simp only [List.all_append, List.all_cons, List.all_nil, Bool.and_eq_true, Bool.and_true]
    refine ⟨⟨by decide, by decide, by decide, hd0, hd1, hd2, hd3, hd4, hd5, hd6, hd7, hd8⟩,
      hdigit⟩
  · rw [hfinal, hpre12]; rfl
  · rw [hfinal, hpre12]
    have hget : (('9' :: '7' :: '8' :: [c0, c1, c2, c3, c4, c5, c6, c7, c8])
        ++ [Char.ofNat (48 + dv)]).getD 12 ' ' = Char.ofNat (48 + dv) := by
      rw [List.getD_append_right]
      · rfl
      · exact Nat.le_refl 12
    rw [hget, hval, hAlt, ← hS, hm]
    exact hdvmod

/-- C2: for every 10-character digit string, `isbn10ToIsbn13` returns a
13-character digit string beginning with `"978"` followed by the first 9
input characters, whose 13th digit `d` satisfies
`d = (10 - s mod 10) mod 10` for `s` the 1,3-alternating weighted sum of the
12 leading digits. -/
theorem isbn10ToIsbn13_spec (s : String) (hlen : s.length = 10)
    (hdig : s.data.all isDigitChar = true) :
    (isbn10ToIsbn13 s).data.length = 13
    ∧ (isbn10ToIsbn13 s).data.all isDigitChar = true
    ∧ (isbn10ToIsbn13 s).data.take 12 = '9' :: '7' :: '8' :: s.data.take 9
    ∧ charVal ((isbn10ToIsbn13 s).data.getD 12 ' ')
        = (10 - (specAltSum false ((isbn10ToIsbn13 s).data.take 12)) % 10) % 10 :=
  isbn_core s.data hlen hdig

/-- C2 witness: the conversion of `"8535931004"`. -/
theorem isbn10ToIsbn13_spec_witness :
    ("8535931004".length = 10 ∧ "8535931004".data.all isDigitChar = true)
    ∧ ((isbn10ToIsbn13 "8535931004").data.length = 13
       ∧ (isbn10ToIsbn13 "8535931004").data.all isDigitChar = true
       ∧ (isbn10ToIsbn13 "8535931004").data.take 12
           = '9' :: '7' :: '8' :: "8535931004".data.take 9
       ∧ charVal ((isbn10ToIsbn13 "8535931004").data.getD 12 ' ')
           = (10 - (specAltSum false ((isbn10ToIsbn13 "8535931004").data.take 12)) % 10) % 10) :=
  ⟨⟨by decide, by decide⟩, isbn10ToIsbn13_spec "8535931004" (by decide) (by decide)⟩
